import Mathlib

/-!
# Verification of the zklogin-prover proof-request pipeline

A shallow embedding of the zklogin-prover service (`src/server.js`, the
rapidsnark-based prover server, and the `zklogin_mys.circom` circuit's
NonceVerify template), together with theorems settling the frozen claims
about the natural-language specification.

Conventions of the embedding:
* JavaScript `Buffer`s are `List Nat` with every element `< 256`.
* JavaScript thrown `Error(message)` values are `Except.error message`
  (the exact message strings of the source).
* JavaScript truthiness of optional JSON values is modelled explicitly
  (`none`, `""` and `0` are falsy).
* base64url decoding, SHA-256 and the Poseidon hash are external library
  collaborators; they enter the model as abstract function parameters or
  as already-decoded byte lists.
* 32-bit signed JavaScript arithmetic (`<<`, `|`) is modelled with
  explicit `% 2^32` reductions on `Nat` plus a two's-complement
  reinterpretation `toInt32`.
-/

namespace ZkLoginProver

/-! ## JavaScript 32-bit arithmetic primitives -/

/-- Reinterpret the low 32 bits of a natural number as a signed JavaScript
32-bit integer (the value `ToInt32` produces). -/
def toInt32 (n : Nat) : Int :=
  let r : Nat := n % 2 ^ 32
  if r < 2 ^ 31 then (r : Int) else (r : Int) - 2 ^ 32

/-- Little-endian numeric value of a byte list (`Buffer` read LSB-first). -/
def leValue : List Nat → Nat
  | [] => 0
  | b :: bs => b + 256 * leValue bs

/-- Big-endian numeric value of a byte list (`Buffer` read MSB-first), as in
`(acc << 8) | byte` accumulation over BigInt. -/
def beValue (bs : List Nat) : Nat :=
  bs.foldl (fun acc b => 256 * acc + b) 0

/-- The 4-byte grouping performed by the chunking loops in
`jwkToCircuitFormat` and the signature chunking of `/prove`
(`for (let i = 0; i < buf.length; i += 4)`): groups of four bytes, the
final group possibly shorter. -/
def chunksOf4 : List Nat → List (List Nat)
  | [] => []
  | b0 :: b1 :: b2 :: b3 :: rest => [b0, b1, b2, b3] :: chunksOf4 rest
  | bs => [bs]

/-- The inner accumulation `chunk |= (buf[i + j] << (j * 8))` of the
chunking loops, carried out in JavaScript 32-bit arithmetic; `j` is the
byte index within the chunk. -/
def chunkOr : List Nat → Nat → Nat
  | [], _ => 0
  | b :: bs, j => ((b <<< (8 * j)) % 2 ^ 32) ||| chunkOr bs (j + 1)

/-- The signed 32-bit value of one chunk, i.e. the number whose decimal
rendering `chunk.toString()` emits. -/
def chunk32 (c : List Nat) : Int := toInt32 (chunkOr c 0)

/-- Chunk a byte buffer into 32-bit little-endian limbs, pad with `'0'`
limbs up to 64 (`while (chunks.length < 64) chunks.push('0')`), and keep
exactly the first 64 (`.slice(0, 64)`).  Shared by the modulus encoding of
`jwkToCircuitFormat` and the JWT-signature encoding in `/prove`. -/
def chunk64 (bs : List Nat) : List Int :=
  let chunks := (chunksOf4 bs).map chunk32
  (chunks ++ List.replicate (64 - chunks.length) 0).take 64

/-- The exponent accumulation `exponent = (exponent << 8) | eBuffer[i]`
of `jwkToCircuitFormat`, carried out in JavaScript 32-bit arithmetic;
the accumulator is kept as its unsigned 32-bit image. -/
def expAccum : List Nat → Nat → Nat
  | [], u => u
  | b :: bs, u => expAccum bs (((u <<< 8) % 2 ^ 32) ||| b)

/-! ## `jwkToCircuitFormat` (src/server.js:194-224) -/

structure CircuitJWK where
  modulus : List Int
  exponent : Int
deriving Repr, DecidableEq

/-- `jwkToCircuitFormat(jwk)`: `nB` and `eB` are the base64url-decoded
bytes of `jwk.n` and `jwk.e`. -/
def jwkToCircuitFormat (nB eB : List Nat) : CircuitJWK :=
  { modulus := chunk64 nB
    exponent := toInt32 (expAccum eB 0) }

/-- Reassemble a limb list little-endian, reading each limb through
`% 2^32` (the unsigned 32-bit value its decimal string denotes modulo
`2^32`). -/
def reassemble (limbs : List Int) : Int :=
  limbs.foldr (fun z acc => z % 2 ^ 32 + 2 ^ 32 * acc) 0

/-! ## `validateDecimalString` (src/server.js:237-255) -/

/-- A JSON scalar as the request body may carry it. -/
inductive JsonVal where
  | str (s : String)
  | num (n : Int)
deriving Repr, DecidableEq

/-- JavaScript truthiness of a JSON scalar. -/
def JsonVal.truthy : JsonVal → Bool
  | .str s => s != ""
  | .num n => n != 0

/-- JavaScript `.toString()` on a JSON scalar. -/
def JsonVal.toStr : JsonVal → String
  | .str s => s
  | .num n => toString n

/-- Truthiness of an optional JSON scalar (absent fields are falsy). -/
def truthyVal : Option JsonVal → Bool
  | none => false
  | some v => v.truthy

/-- The character class of the regex `/^\d+$/`. -/
def isDigitChar (c : Char) : Bool := '0' ≤ c && c ≤ '9'

/-- Numeric value of a digits-only decimal string (what `BigInt(value)`
yields on a string matching `/^\d+$/`). -/
def decimalValue (s : String) : Nat :=
  s.data.foldl (fun acc c => 10 * acc + (c.toNat - '0'.toNat)) 0

/-- `validateDecimalString(value, fieldName, maxBits = 256)`. -/
def validateDecimalString (value : JsonVal) (fieldName : String)
    (maxBits : Nat := 256) : Except String String :=
  match value with
  | .num _ => .error (fieldName ++ " must be a string")
  | .str s =>
    if !(s != "" && s.data.all isDigitChar) then
      .error (fieldName ++ " must contain only digits")
    else if decimalValue s > 2 ^ maxBits - 1 then
      .error (fieldName ++ " exceeds maximum " ++ toString maxBits ++ "-bit value")
    else
      .ok s

/-! ## `hexToFieldArray` (src/server.js:258-274)

The JavaScript function receives the hex rendering of a digest buffer and
re-parses it pairwise into bytes; the embedding works on the byte list
directly.  Zero bytes are unshifted while the list is short, then
`.slice(-arraySize)` keeps the last `arraySize` entries. -/
def hexToFieldArray (bytes : List Nat) (arraySize : Nat := 32) : List Nat :=
  let padded := List.replicate (arraySize - bytes.length) 0 ++ bytes
  padded.drop (padded.length - arraySize)

/-! ## `parseJWT` (src/server.js:42-112)

A compact token that survives splitting into three dot-separated segments
and base64url/JSON decoding of the first two is represented by `RawToken`
(decoded header and payload plus the raw segment strings).  A token string
that is empty, not a string, has a segment count other than three, or
whose segments fail to decode, is represented as `none`; `parseJWT` maps
it to the corresponding malformed-token error. -/

structure JwtHeader where
  alg : Option String
  typ : Option String
  kid : Option String
deriving Repr, DecidableEq

/-- Decoded JWT payload: JSON string-valued and number-valued claims. -/
structure JwtPayload where
  strClaims : List (String × String)
  numClaims : List (String × Int)
deriving Repr, DecidableEq

/-- Property access `payload[k]` for a string-valued claim. -/
def JwtPayload.str (p : JwtPayload) (k : String) : Option String :=
  (p.strClaims.find? (fun kv => kv.1 == k)).map (·.2)

/-- Property access `payload[k]` for a number-valued claim. -/
def JwtPayload.num (p : JwtPayload) (k : String) : Option Int :=
  (p.numClaims.find? (fun kv => kv.1 == k)).map (·.2)

/-- JavaScript truthiness of an optional string property. -/
def truthyStr : Option String → Bool
  | none => false
  | some s => s != ""

/-- JavaScript truthiness of an optional numeric property. -/
def truthyNum : Option Int → Bool
  | none => false
  | some v => v != 0

structure RawToken where
  header : JwtHeader
  payload : JwtPayload
  rawHeader : String
  rawPayload : String
  rawSignature : String
deriving Repr, DecidableEq

structure ParsedToken where
  header : JwtHeader
  payload : JwtPayload
  signature : String
  rawHeader : String
  rawPayload : String
deriving Repr, DecidableEq

/-- `parseJWT(token)` evaluated at wall-clock time `now` (seconds). -/
def parseJWT (token : Option RawToken) (now : Int) : Except String ParsedToken :=
  match token with
  | none => .error "Invalid JWT: must have exactly 3 parts separated by dots"
  | some t =>
    if !(truthyStr t.header.alg && truthyStr t.header.typ) then
      .error "Invalid JWT header: missing required fields (alg, typ)"
    else if t.header.typ != some "JWT" then
      -- this message contains neither 'Invalid JWT' nor 'Token', so the
      -- surrounding catch re-wraps it
      .error "JWT parsing failed: Invalid token type: expected JWT"
    else if !(truthyStr (t.payload.str "iss") && truthyStr (t.payload.str "sub")
        && truthyStr (t.payload.str "aud")) then
      .error "Invalid JWT payload: missing required claims (iss, sub, aud)"
    else if truthyNum (t.payload.num "exp") && (t.payload.num "exp").getD 0 < now then
      .error "Token has expired"
    else if truthyNum (t.payload.num "nbf") && (t.payload.num "nbf").getD 0 > now then
      .error "Token is not yet valid (nbf claim)"
    else if truthyNum (t.payload.num "iat") && (t.payload.num "iat").getD 0 > now + 300 then
      .error "Token issued in the future"
    else if t.rawSignature == "" then
      .error "Invalid JWT: missing signature"
    else
      .ok ⟨t.header, t.payload, t.rawSignature, t.rawHeader, t.rawPayload⟩

/-! ## `fetchJWK` (src/server.js:115-191)

The JWK cache is process-wide state threaded explicitly; the JWKS
discovery endpoint is an oracle `NetResult` describing what the single
`axios.get` of this call would observe.  The result records the cache
after the call and how many network fetches were performed, so that the
caching claims can speak about both. -/

/-- A JSON Web Key as found in a JWKS document; `n` and `e` carry the
base64url-decoded bytes of the modulus and exponent. -/
structure JWK where
  kid : Option String
  kty : Option String
  use : Option String
  alg : Option String
  n : Option (List Nat)
  e : Option (List Nat)
deriving Repr, DecidableEq

/-- Truthiness of an optional base64url-encoded field, read on its decoded
bytes (the empty string decodes to the empty byte list). -/
def truthyBytes : Option (List Nat) → Bool
  | none => false
  | some bs => !bs.isEmpty

/-- What the bounded-timeout JWKS fetch observes. -/
inductive NetResult where
  | transportError
  | httpError (status : Nat) (statusText : String)
  | ok (keys : Option (List JWK))
deriving Repr, DecidableEq

structure CacheEntry where
  jwk : JWK
  timestamp : Int
deriving Repr, DecidableEq

/-- The process-wide `jwkCache` `Map`, keyed by `` `${provider}_${keyId}` ``. -/
def Cache := List (String × CacheEntry)

instance : DecidableEq Cache := inferInstanceAs (DecidableEq (List (String × CacheEntry)))

def cacheGet (c : Cache) (k : String) : Option CacheEntry :=
  (List.find? (fun kv => kv.1 == k) c).map (·.2)

/-- `Map.set`: replace any existing entry for the key. -/
def cacheSet (c : Cache) (k : String) (v : CacheEntry) : Cache :=
  (k, v) :: List.filter (fun kv => kv.1 != k) c

def JWK_CACHE_TTL : Int := 3600000

def OAUTH_PROVIDER_NAMES : List String := ["google", "facebook", "apple"]

structure FetchResult where
  result : Except String JWK
  cache : Cache
  networkCalls : Nat

/-- The miss path of `fetchJWK`: provider lookup, network fetch,
key location, validation, and cache insertion. -/
def fetchJWKMiss (cache : Cache) (now : Int) (provider keyId : String)
    (net : NetResult) (cacheKey : String) : FetchResult :=
  if !(OAUTH_PROVIDER_NAMES.contains provider) then
    ⟨.error ("Unsupported OAuth provider: " ++ provider), cache, 0⟩
  else
    match net with
    | .transportError =>
      ⟨.error ("Unable to connect to " ++ provider ++ " JWK endpoint"), cache, 1⟩
    | .httpError status statusText =>
      ⟨.error ("JWK fetch failed: " ++ toString status ++ " " ++ statusText), cache, 1⟩
    | .ok none =>
      ⟨.error "Invalid JWKS response: missing keys array", cache, 1⟩
    | .ok (some keys) =>
      match keys.find? (fun key => key.kid == some keyId) with
      | none => ⟨.error ("JWK not found for keyId: " ++ keyId), cache, 1⟩
      | some jwk =>
        if !(truthyStr jwk.kty && truthyStr jwk.use && truthyStr jwk.alg) then
          ⟨.error "Invalid JWK: missing required fields", cache, 1⟩
        else if jwk.kty != some "RSA" then
          ⟨.error ("Unsupported key type: " ++ (jwk.kty.getD "") ++ ", expected RSA"), cache, 1⟩
        else if jwk.use != some "sig" then
          ⟨.error ("Invalid key use: " ++ (jwk.use.getD "") ++ ", expected sig"), cache, 1⟩
        else if !(truthyBytes jwk.n && truthyBytes jwk.e) then
          ⟨.error "Invalid RSA JWK: missing modulus (n) or exponent (e)", cache, 1⟩
        else
          let keySize := (jwk.n.getD []).length * 8
          if keySize < 2048 then
            ⟨.error ("Insufficient key size: " ++ toString keySize ++
              " bits, minimum 2048 required"), cache, 1⟩
          else
            ⟨.ok jwk, cacheSet cache cacheKey ⟨jwk, now⟩, 1⟩

/-- `fetchJWK(provider, keyId)` at wall-clock time `now` (milliseconds). -/
def fetchJWK (cache : Cache) (now : Int) (provider keyId : String)
    (net : NetResult) : FetchResult :=
  let cacheKey := provider ++ "_" ++ keyId
  match cacheGet cache cacheKey with
  | some cached =>
    if now - cached.timestamp < JWK_CACHE_TTL then ⟨.ok cached.jwk, cache, 0⟩
    else fetchJWKMiss cache now provider keyId net cacheKey
  | none => fetchJWKMiss cache now provider keyId net cacheKey

/-! ## `getProviderFromIssuer` (src/server.js:227-234) -/

def OAUTH_ISSUERS : List (String × String) :=
  [("google", "https://accounts.google.com"),
   ("facebook", "https://www.facebook.com"),
   ("apple", "https://appleid.apple.com")]

/-- JavaScript `s.startsWith(pre)`. -/
def jsStartsWith (s pre : String) : Bool :=
  pre.data.isPrefixOf s.data

def getProviderFromIssuer (issuer : String) : Except String String :=
  match OAUTH_ISSUERS.find? (fun pc => issuer == pc.2 || jsStartsWith issuer pc.2) with
  | some pc => .ok pc.1
  | none => .error ("Unsupported issuer: " ++ issuer)

/-! ## `extractEphemeralKeyCoordinates` (src/server.js:309-408)

`keyBytes` are the base64-decoded bytes of the extended ephemeral public
key.  The function accepts 33 bytes (flag plus key) or 32 bytes (raw key,
a zero flag byte is prepended), converts the flagged bytes to a big-endian
integer, and splits it at bit 128; the returned `xFull`/`yFull` strings
carry the high and low halves. -/

structure EphCoords where
  xFull : Nat
  yFull : Nat
deriving Repr, DecidableEq

def extractEphemeralKeyCoordinates (keyBytes : List Nat) :
    Except String EphCoords :=
  if keyBytes.length == 33 || keyBytes.length == 32 then
    let extendedKeyBytes := if keyBytes.length == 32 then 0 :: keyBytes else keyBytes
    let extEphPkBigInt := beValue extendedKeyBytes
    .ok ⟨extEphPkBigInt / 2 ^ 128, extEphPkBigInt % 2 ^ 128⟩
  else
    .error ("Failed to extract ephemeral key coordinates: " ++
      "Invalid extended ephemeral public key length: " ++
      toString keyBytes.length ++ ", expected 32 or 33 bytes")

/-! ## The `/prove` handler of src/server.js (lines 410-613)

The handler is modelled up to the `snarkjs.groth16.fullProve` invocation:
`serverProveCore` performs every validation and encoding step in source
order and returns the assembled circuit inputs, and `serverProve` records
whether the prover was reached.  SHA-256 and base64url decoding are
abstract collaborators passed as functions. -/

/-- The `extendedEphemeralPublicKey` request field: absent/falsy, a base64
string (carried as its decoded bytes), or an object with `x`/`y`. -/
inductive EphKeyField where
  | missing
  | b64 (bytes : List Nat)
  | obj (x y : Option JsonVal)
deriving Repr, DecidableEq

structure ProveRequest where
  jwt : Option RawToken
  extendedEphemeralPublicKey : EphKeyField
  maxEpoch : Option JsonVal
  jwtRandomness : Option JsonVal
  salt : Option JsonVal
  keyClaimName : Option String
deriving Repr, DecidableEq

/-- The `circuitInputs` object handed to witness generation. -/
structure CircuitInputs where
  addrSeed : Nat
  issuerHash : List Nat
  maxEpoch : String
  jwkModulus : List Int
  jwkExponent : Int
  jwtHash : List Nat
  jwtSignature : List Int
  jwtNonce : List Nat
  ephemeralPubKey : JsonVal × JsonVal
  jwtRandomness : String
  subjectHash : List Nat
deriving Repr, DecidableEq

/-- Steps 1-6 of the `/prove` handler, in source order, up to and
excluding `snarkjs.groth16.fullProve`.  `sha256` maps a string to its
digest bytes; `b64` maps a base64url string to its decoded bytes;
`buildFilesExist` is the `fs.existsSync` oracle for the wasm/zkey files. -/
def serverProveCore (req : ProveRequest) (now : Int) (cache : Cache)
    (net : NetResult) (sha256 : String → List Nat) (b64 : String → List Nat)
    (buildFilesExist : Bool) : Except String CircuitInputs := do
  -- 1. Parse and validate JWT
  let parsed ← parseJWT req.jwt now
  let payload := parsed.payload
  let iss := (payload.str "iss").getD ""
  -- 2. Determine OAuth provider and fetch JWK
  let provider ← getProviderFromIssuer iss
  if !(truthyStr parsed.header.kid) then
    throw "JWT header missing required kid (key ID) field"
  let jwk ← (fetchJWK cache now provider (parsed.header.kid.getD "") net).result
  let circuitJWK := jwkToCircuitFormat ((jwk.n).getD []) ((jwk.e).getD [])
  -- 3. Validate input parameters
  let eph ← match req.extendedEphemeralPublicKey with
    | .missing => throw "Missing extendedEphemeralPublicKey"
    | .b64 bytes => do
      let coords ← extractEphemeralKeyCoordinates bytes
      pure (JsonVal.str (toString coords.xFull), JsonVal.str (toString coords.yFull))
    | .obj x y =>
      if truthyVal x && truthyVal y then
        pure ((x.getD (.str "")), (y.getD (.str "")))
      else
        throw "Invalid extendedEphemeralPublicKey format"
  if !(truthyVal req.maxEpoch) then throw "Missing maxEpoch"
  if !(truthyVal req.jwtRandomness) then throw "Missing jwtRandomness"
  if !(truthyVal req.salt) then throw "Missing salt"
  let validatedSalt ← validateDecimalString (req.salt.getD (.str "")) "salt"
  let validatedJwtRandomness ←
    validateDecimalString (req.jwtRandomness.getD (.str "")) "jwtRandomness"
  let validatedMaxEpoch ←
    validateDecimalString (.str (req.maxEpoch.getD (.str "")).toStr) "maxEpoch"
  -- 4. Compute required hashes and values
  let jwtHash := sha256 (parsed.rawHeader ++ "." ++ parsed.rawPayload)
  let keyClaimName := req.keyClaimName.getD "sub"
  let subjectOpt := payload.str keyClaimName
  if !(truthyStr subjectOpt) then
    throw ("JWT payload missing claim: " ++ keyClaimName)
  let subjectValue := subjectOpt.getD ""
  let subjectHash := sha256 subjectValue
  let issuerHash := sha256 iss
  let addressSeed :=
    beValue (sha256 (subjectValue ++ (payload.str "aud").getD "" ++ iss ++ validatedSalt))
  let nonce := payload.str "nonce"
  if !(truthyStr nonce) then throw "JWT payload missing nonce claim"
  let nonceBytes := b64 (nonce.getD "")
  let signatureChunks := chunk64 (b64 parsed.signature)
  -- 5. Prepare circuit inputs / 6. Generate proof (build-file check)
  if !buildFilesExist then
    throw "Circuit build files not found. Please run: npm run setup"
  pure
    { addrSeed := addressSeed
      issuerHash := hexToFieldArray issuerHash
      maxEpoch := validatedMaxEpoch
      jwkModulus := circuitJWK.modulus
      jwkExponent := circuitJWK.exponent
      jwtHash := hexToFieldArray jwtHash
      jwtSignature := signatureChunks
      jwtNonce := hexToFieldArray nonceBytes
      ephemeralPubKey := eph
      jwtRandomness := validatedJwtRandomness
      subjectHash := hexToFieldArray subjectHash }

structure ProveTrace where
  result : Except String CircuitInputs
  proverInvoked : Bool
deriving Repr

/-- The `/prove` handler as observed from outside: its outcome and whether
`snarkjs.groth16.fullProve` (witness generation and proving) was reached. -/
def serverProve (req : ProveRequest) (now : Int) (cache : Cache)
    (net : NetResult) (sha256 : String → List Nat) (b64 : String → List Nat)
    (buildFilesExist : Bool) : ProveTrace :=
  match serverProveCore req now cache net sha256 b64 buildFilesExist with
  | .error e => ⟨.error e, false⟩
  | .ok ci => ⟨.ok ci, true⟩

/-! ## The circuit's `NonceVerify` template
(src/circuits/zklogin_mys.circom:70-115)

`poseidonOut` abstracts the circomlib `Poseidon(4)` evaluation at
`(ephemeralPubKey[0], ephemeralPubKey[1], maxEpoch, jwtRandomness)`; it is
a BN254 field element, hence below `2^256` as `Num2Bits(256)` requires.
`expectedBytes[i]` recombines bits `8i..8i+7`, i.e. byte `i` of the
little-endian representation, and `valid` is the product of the 32
byte-equality indicators. -/

def nonceExpectedByte (poseidonOut : Nat) (i : Nat) : Nat :=
  poseidonOut / 2 ^ (8 * i) % 256

/-- The `valid` output signal of `NonceVerify` for a 32-element
`jwtNonce` signal array. -/
def nonceVerifyValid (poseidonOut : Nat) (jwtNonce : List Nat) : Nat :=
  if (List.range 32).all
      (fun i => nonceExpectedByte poseidonOut i == jwtNonce.getD i 0) then 1 else 0

/-! ## The rapidsnark-based `/prove` handler (prover coordinator server)

This server writes the circuit input to `inputs/input.json`
(`path.join('inputs', 'input.json')`), generates the witness at
`outputs/witness.wtns`, runs the prover producing `outputs/proof.json` and
`outputs/public.json`, and deletes all four files on success; its catch
block deletes whichever of the four exist.  The filesystem is modelled as
a characteristic function on paths, subprocess and parse outcomes as an
oracle record, and the handler reports the HTTP status, the final
filesystem, and the transient artifact paths the call created. -/

/-- `path.join('inputs', 'input.json')` — a process-wide constant. -/
def inputPath : String := "inputs/input.json"

def witnessPath : String := "outputs/witness.wtns"

def proofPath : String := "outputs/proof.json"

def publicPath : String := "outputs/public.json"

/-- The filesystem as the set of existing files. -/
def FS := String → Bool

def fsAdd (fs : FS) (p : String) : FS := fun q => q == p || fs q

def fsRemove (fs : FS) (p : String) : FS := fun q => if q == p then false else fs q

/-- The catch-block cleanup: for each of the four artifact paths, delete
it if it exists (`if (fs.existsSync(file)) fs.unlinkSync(file)`); deleting
an absent path is a no-op in the model, so the conditional collapses to an
unconditional removal. -/
def cleanupAll (fs : FS) : FS :=
  [inputPath, witnessPath, proofPath, publicPath].foldl fsRemove fs

/-- The coordinator's request body: `jwtHash`, `nonce`, `pubKeyHash`. -/
structure CoordReq where
  jwtHash : Option JsonVal
  nonce : Option JsonVal
  pubKeyHash : Option JsonVal
deriving Repr, DecidableEq

/-- The transient artifact paths a given request's `/prove` invocation
uses.  The handler computes them from process-wide constants, so the
request does not enter the computation. -/
def transientPaths (_req : CoordReq) : List String :=
  [inputPath, witnessPath, proofPath, publicPath]

/-- Outcomes of the fallible steps inside the handler's `try` block.
`*Created` flags record whether a failing step left its output file
behind (a subprocess may die after creating the file). -/
structure ExecOutcome where
  writeOk : Bool
  writeCreated : Bool
  witnessOk : Bool
  witnessCreated : Bool
  proofOk : Bool
  proofCreated : Bool
  publicCreated : Bool
  parseOk : Bool
deriving Repr, DecidableEq

structure HandlerResult where
  status : Nat
  fs : FS
  created : List String

/-- The error path: the catch block removes every artifact path that
exists and responds 500. -/
def coordFail (fs : FS) (created : List String) : HandlerResult :=
  ⟨500, cleanupAll fs, created⟩

/-- The rapidsnark `/prove` handler.  `req = none` models a body that is
missing or not an object. -/
def coordProve (keysReady keyGenInProgress : Bool) (req : Option CoordReq)
    (oc : ExecOutcome) (fs0 : FS) : HandlerResult :=
  if keyGenInProgress then ⟨503, fs0, []⟩
  else if !keysReady then ⟨503, fs0, []⟩
  else
    match req with
    | none => ⟨400, fs0, []⟩
    | some input =>
      if !(truthyVal input.jwtHash && truthyVal input.nonce
          && truthyVal input.pubKeyHash) then ⟨400, fs0, []⟩
      else
        -- fs.writeFileSync(inputPath, ...)
        if !oc.writeOk then
          coordFail (if oc.writeCreated then fsAdd fs0 inputPath else fs0)
            (if oc.writeCreated then [inputPath] else [])
        else
          let fs1 := fsAdd fs0 inputPath
          -- execSync(generate_witness ...)
          if !oc.witnessOk then
            coordFail (if oc.witnessCreated then fsAdd fs1 witnessPath else fs1)
              (inputPath :: if oc.witnessCreated then [witnessPath] else [])
          else
            let fs2 := fsAdd fs1 witnessPath
            -- execSync(rapidsnark-wrapper ...)
            if !oc.proofOk then
              coordFail
                ((if oc.publicCreated then (fsAdd · publicPath) else id)
                  (if oc.proofCreated then fsAdd fs2 proofPath else fs2))
                ([inputPath, witnessPath]
                  ++ (if oc.proofCreated then [proofPath] else [])
                  ++ (if oc.publicCreated then [publicPath] else []))
            else
              let fs3 := fsAdd (fsAdd fs2 proofPath) publicPath
              let allPaths := [inputPath, witnessPath, proofPath, publicPath]
              -- JSON.parse of the null-stripped outputs
              if !oc.parseOk then coordFail fs3 allPaths
              else
                -- success: unlinkSync each of the four, then respond
                ⟨200, cleanupAll fs3, allPaths⟩

/-! ## Concrete test fixtures

A validated Google signing key, a well-formed token and a request that
drive `/prove` down its happy path; used to instantiate theorems at
concrete inputs. -/

def testJWK : JWK :=
  { kid := some "kid1", kty := some "RSA", use := some "sig", alg := some "RS256",
    n := some (List.replicate 256 1), e := some [1, 0, 1] }

def testNet : NetResult := .ok (some [testJWK])

def testSha : String → List Nat := fun _ => List.replicate 32 1

def testB64 : String → List Nat := fun _ => [1, 2, 3]

def testToken (nonce : String) : RawToken :=
  { header := { alg := some "RS256", typ := some "JWT", kid := some "kid1" }
    payload :=
      { strClaims := [("iss", "https://accounts.google.com"), ("sub", "user-1"),
                      ("aud", "aud-1"), ("nonce", nonce)]
        numClaims := [("exp", 2000000000)] }
    rawHeader := "hseg", rawPayload := "pseg", rawSignature := "sigseg" }

def testReq (nonce : String) : ProveRequest :=
  { jwt := some (testToken nonce)
    extendedEphemeralPublicKey := .b64 (List.replicate 32 1)
    maxEpoch := some (.str "5")
    jwtRandomness := some (.str "7")
    salt := some (.str "9")
    keyClaimName := none }

/-! ## Helper lemmas -/

theorem except_bind_ok {ε α β : Type} (x : Except ε α) (f : α → Except ε β) (b : β) :
    (x >>= f) = .ok b ↔ ∃ a, x = .ok a ∧ f a = .ok b := by
  cases x <;> simp [Bind.bind, Except.bind]

theorem parseJWT_ok_shape (tok : Option RawToken) (now : Int) (pt : ParsedToken)
    (h : parseJWT tok now = .ok pt) :
    ∃ t, tok = some t ∧ pt.header = t.header ∧ pt.payload = t.payload := by
  cases tok with
  | none => cases h
  | some t =>
    refine ⟨t, rfl, ?_⟩
    simp only [parseJWT] at h
    repeat' split at h
    all_goals cases h
    exact ⟨rfl, rfl⟩

set_option maxRecDepth 10000 in
/-- Everything `serverProveCore` guarantees when it reaches the prover:
the decimal-string validations passed and the token carried a truthy
nonce claim. -/
theorem serverProveCore_ok_facts (req : ProveRequest) (now : Int) (cache : Cache)
    (net : NetResult) (sha256 b64 : String → List Nat) (bf : Bool)
    (ci : CircuitInputs) (h : serverProveCore req now cache net sha256 b64 bf = .ok ci) :
    ∃ t, req.jwt = some t ∧
      (validateDecimalString (req.salt.getD (.str "")) "salt").isOk = true ∧
      (validateDecimalString (req.jwtRandomness.getD (.str "")) "jwtRandomness").isOk = true ∧
      (validateDecimalString (.str ((req.maxEpoch.getD (.str "")).toStr)) "maxEpoch").isOk = true ∧
      truthyStr (t.payload.str "nonce") = true := by
  simp only [serverProveCore, Bind.bind, Except.bind] at h
  split at h
  all_goals try (cases h)
  rename_i parsed hp
  obtain ⟨t, ht, hh, hpay⟩ := parseJWT_ok_shape _ _ _ hp
  refine ⟨t, ht, ?_⟩
  rw [← hpay]
  repeat' split at h
  all_goals cases h
  all_goals
    rename validateDecimalString _ "salt" = _ => hs
    rename validateDecimalString _ "jwtRandomness" = _ => hr
    rename validateDecimalString _ "maxEpoch" = _ => hm
    rename ¬(!truthyStr _) = true => hn
    exact ⟨by rw [hs]; rfl, by rw [hr]; rfl, by rw [hm]; rfl, by simpa using hn⟩

theorem validateDecimalString_ok_iff (s fieldName : String) :
    (validateDecimalString (.str s) fieldName).isOk = true ↔
      (s ≠ "" ∧ s.data.all isDigitChar = true ∧ decimalValue s < 2 ^ 256) := by
  have hN : (0 : Nat) < 2 ^ 256 := by positivity
  simp only [validateDecimalString]
  split_ifs with h1 h2
  · constructor
    · intro hok; exact Bool.noConfusion hok
    · rintro ⟨hne, hall, -⟩
      rw [Bool.not_eq_true', Bool.and_eq_false_iff] at h1
      rcases h1 with h | h
      · exact (hne (by simpa [bne_iff_ne] using h)).elim
      · simp [hall] at h
  · constructor
    · intro hok; exact Bool.noConfusion hok
    · rintro ⟨-, -, hlt⟩
      generalize hgen : (2 : Nat) ^ 256 = N at *
      omega
  · simp only [true_iff, Except.isOk, Except.toBool]
    rw [Bool.not_eq_true', Bool.not_eq_false] at h1
    rw [Bool.and_eq_true] at h1
    refine ⟨by simpa [bne_iff_ne] using h1.1, h1.2, ?_⟩
    generalize hgen : (2 : Nat) ^ 256 = N at *
    omega

/-! ## Claim C8 — numeric request-input validation -/

/-- **C8**: a numeric string request input (salt, jwtRandomness, maxEpoch)
is accepted by `validateDecimalString` if and only if it is a non-empty
digits-only string whose value is strictly below `2^256`; non-string
values are rejected; and whenever the `/prove` pipeline reaches the
prover, all three validations had passed (so an invalid salt can never
reach proving). -/
theorem numeric_input_gate :
    (∀ s fieldName : String,
      (validateDecimalString (.str s) fieldName).isOk = true ↔
        (s ≠ "" ∧ s.data.all isDigitChar = true ∧ decimalValue s < 2 ^ 256)) ∧
    (∀ (n : Int) (fieldName : String),
      validateDecimalString (.num n) fieldName = .error (fieldName ++ " must be a string")) ∧
    (∀ req now cache net sha256 b64 bf,
      (serverProve req now cache net sha256 b64 bf).proverInvoked = true →
        (validateDecimalString (req.salt.getD (.str "")) "salt").isOk = true ∧
        (validateDecimalString (req.jwtRandomness.getD (.str "")) "jwtRandomness").isOk = true ∧
        (validateDecimalString (.str ((req.maxEpoch.getD (.str "")).toStr))
          "maxEpoch").isOk = true) := by
  refine ⟨validateDecimalString_ok_iff, fun n f => rfl, ?_⟩
  intro req now cache net sha256 b64 bf h
  cases hcore : serverProveCore req now cache net sha256 b64 bf with
  | error e => simp [serverProve, hcore] at h
  | ok ci =>
    obtain ⟨t, ht, hs, hr, hm, hn⟩ := serverProveCore_ok_facts _ _ _ _ _ _ _ _ hcore
    exact ⟨hs, hr, hm⟩

set_option maxRecDepth 10000 in
theorem numeric_input_gate_witness :
    (validateDecimalString (.str "123") "maxEpoch").isOk = true ∧
    (validateDecimalString ((testReq "AAAA").salt.getD (.str "")) "salt").isOk = true :=
  ⟨(numeric_input_gate.1 "123" "maxEpoch").mpr (by decide),
   ((numeric_input_gate.2.2 (testReq "AAAA") 0 [] testNet testSha testB64 true) (by rfl)).1⟩

/-! ## Claim C5 — expiry handling in `parseJWT` -/

/-- A well-formed token whose `exp` claim is `0`: every claim is present
and valid except that `exp` lies in the past. -/
def tokenExpZero : RawToken :=
  { header := { alg := some "RS256", typ := some "JWT", kid := some "kid1" }
    payload := { strClaims := [("iss", "i"), ("sub", "s"), ("aud", "a")]
                 numClaims := [("exp", 0)] }
    rawHeader := "h", rawPayload := "p", rawSignature := "sig" }

/-- **C5 counterexample**: a well-formed token whose `exp` claim is `0`
lies in the past at validation time `now = 1000`, yet `parseJWT` succeeds
instead of failing with the expiry error: `payload.exp && payload.exp <
now` skips the check because `0` is falsy in JavaScript. -/
theorem parseJWT_expired_cex :
    tokenExpZero.payload.num "exp" = some 0 ∧ (0 : Int) < 1000 ∧
    (parseJWT (some tokenExpZero) 1000).isOk = true := by
  decide

/-- **C5 (amended)**: for every well-formed token whose `exp` claim is
present, **nonzero**, and in the past, `parseJWT` fails with the
token-expired error; with `exp` in the future and the remaining claims
valid it succeeds and returns the parsed token.  The nonzero proviso is
forced by the counterexample: JavaScript truthiness skips the expiry
check when `exp = 0`. -/
theorem parseJWT_exp_behavior (t : RawToken) (now e : Int)
    (hhdr : truthyStr t.header.alg = true) (htyp : t.header.typ = some "JWT")
    (hiss : truthyStr (t.payload.str "iss") = true)
    (hsub : truthyStr (t.payload.str "sub") = true)
    (haud : truthyStr (t.payload.str "aud") = true)
    (hexp : t.payload.num "exp" = some e) :
    (e ≠ 0 → e < now → parseJWT (some t) now = .error "Token has expired") ∧
    (e > now →
      (truthyNum (t.payload.num "nbf") = true → (t.payload.num "nbf").getD 0 ≤ now) →
      (truthyNum (t.payload.num "iat") = true → (t.payload.num "iat").getD 0 ≤ now + 300) →
      t.rawSignature ≠ "" →
      parseJWT (some t) now =
        .ok ⟨t.header, t.payload, t.rawSignature, t.rawHeader, t.rawPayload⟩) := by
  have h1 : (!(truthyStr t.header.alg && truthyStr t.header.typ)) = false := by
    rw [hhdr, htyp]
    decide
  have h2 : (t.header.typ != some "JWT") = false := by simp [htyp]
  have h3 : (!(truthyStr (t.payload.str "iss") && truthyStr (t.payload.str "sub")
      && truthyStr (t.payload.str "aud"))) = false := by
    simp [hiss, hsub, haud]
  constructor
  · intro hne hlt
    have h4 : (truthyNum (t.payload.num "exp")
        && decide ((t.payload.num "exp").getD 0 < now)) = true := by
      simp [hexp, truthyNum, bne_iff_ne, hne, hlt]
    simp [parseJWT, h1, h2, h3, h4]
  · intro hgt hnbf hiat hsig
    have hnlt : ¬((t.payload.num "exp").getD 0 < now) := by rw [hexp]; simp; omega
    have h4 : (truthyNum (t.payload.num "exp")
        && decide ((t.payload.num "exp").getD 0 < now)) = false := by
      rw [decide_eq_false hnlt, Bool.and_false]
    have h5 : (truthyNum (t.payload.num "nbf")
        && decide ((t.payload.num "nbf").getD 0 > now)) = false := by
      cases hb : truthyNum (t.payload.num "nbf") with
      | false => rw [Bool.false_and]
      | true =>
        rw [Bool.true_and, decide_eq_false]
        exact not_lt_of_le (hnbf hb)
    have h6 : (truthyNum (t.payload.num "iat")
        && decide ((t.payload.num "iat").getD 0 > now + 300)) = false := by
      cases hb : truthyNum (t.payload.num "iat") with
      | false => rw [Bool.false_and]
      | true =>
        rw [Bool.true_and, decide_eq_false]
        exact not_lt_of_le (hiat hb)
    have h7 : (t.rawSignature == "") = false := by
      simpa using hsig
    simp [parseJWT, h1, h2, h3, h4, h5, h6, h7]

/-- A well-formed token with `exp = 5`, plainly in the past. -/
def tokenExpPast : RawToken :=
  { header := { alg := some "RS256", typ := some "JWT", kid := some "kid1" }
    payload := { strClaims := [("iss", "i"), ("sub", "s"), ("aud", "a")]
                 numClaims := [("exp", 5)] }
    rawHeader := "h", rawPayload := "p", rawSignature := "sig" }

theorem parseJWT_exp_behavior_witness :
    parseJWT (some tokenExpPast) 1000 = .error "Token has expired" ∧
    parseJWT (some (testToken "AAAA")) 1000 =
      .ok ⟨(testToken "AAAA").header, (testToken "AAAA").payload, "sigseg", "hseg", "pseg"⟩ :=
  ⟨(parseJWT_exp_behavior tokenExpPast 1000 5 (by decide) (by decide) (by decide)
      (by decide) (by decide) (by decide)).1 (by decide) (by decide),
   (parseJWT_exp_behavior (testToken "AAAA") 1000 2000000000 (by decide) (by decide)
      (by decide) (by decide) (by decide) (by decide)).2 (by decide) (by decide)
      (by decide) (by decide)⟩

/-! ## Claim C2 — nonce enforcement -/

set_option maxRecDepth 10000 in
/-- **C2 counterexample**: two requests identical except for the value of
the JWT `nonce` claim both reach witness generation and proving.  The
expected nonce derived from the shared (ephemeralPublicKey, maxEpoch,
jwtRandomness) is a single value, so at least one of the two nonces
differs from it, yet neither request fails before the prover is invoked:
the server performs no nonce comparison at all (it only checks presence),
so no `NonceMismatch` failure can precede the subprocesses. -/
theorem nonce_mismatch_reaches_prover_cex :
    (serverProve (testReq "AAAA") 0 [] testNet testSha testB64 true).proverInvoked = true ∧
    (serverProve (testReq "BBBB") 0 [] testNet testSha testB64 true).proverInvoked = true ∧
    (testToken "AAAA").payload.str "nonce" = some "AAAA" ∧
    (testToken "BBBB").payload.str "nonce" = some "BBBB" ∧
    ("AAAA" == "BBBB") = false :=
  ⟨rfl, rfl, by decide, by decide, by decide⟩

/-- **C2 (amended)**: the server rejects a request before proving only
when the `nonce` claim is missing or empty (presence check); a request
that reaches the prover always carried a truthy nonce, but its value is
never compared server-side.  The value comparison lives solely in the
circuit's `NonceVerify` template, whose `valid` output signal is `0`
whenever some byte of the nonce differs from the corresponding byte of
the Poseidon-derived expected nonce — proving itself is not aborted. -/
theorem nonce_enforcement (req : ProveRequest) (now : Int) (cache : Cache)
    (net : NetResult) (sha256 b64 : String → List Nat) (bf : Bool) :
    ((serverProve req now cache net sha256 b64 bf).proverInvoked = true →
      ∃ t, req.jwt = some t ∧ truthyStr (t.payload.str "nonce") = true) ∧
    (∀ (poseidonOut : Nat) (jwtNonce : List Nat) (i : Nat), i < 32 →
      nonceExpectedByte poseidonOut i ≠ jwtNonce.getD i 0 →
      nonceVerifyValid poseidonOut jwtNonce = 0) := by
  constructor
  · intro h
    cases hcore : serverProveCore req now cache net sha256 b64 bf with
    | error e => simp [serverProve, hcore] at h
    | ok ci =>
      obtain ⟨t, ht, _, _, _, hn⟩ := serverProveCore_ok_facts _ _ _ _ _ _ _ _ hcore
      exact ⟨t, ht, hn⟩
  · intro p jwtNonce i hi hne
    rw [nonceVerifyValid, if_neg]
    intro hall
    rw [List.all_eq_true] at hall
    have hb := hall i (List.mem_range.mpr hi)
    exact hne (by simpa using hb)

set_option maxRecDepth 10000 in
theorem nonce_enforcement_witness :
    (∃ t, (testReq "AAAA").jwt = some t ∧ truthyStr (t.payload.str "nonce") = true) ∧
    nonceVerifyValid 0 (List.replicate 32 1) = 0 :=
  ⟨(nonce_enforcement (testReq "AAAA") 0 [] testNet testSha testB64 true).1 rfl,
   (nonce_enforcement (testReq "AAAA") 0 [] testNet testSha testB64 true).2
     0 (List.replicate 32 1) 0 (by decide) (by decide)⟩

/-! ## Claim C3 — circuit-input numeric range -/

set_option maxRecDepth 10000 in
/-- A 256-byte (2048-bit-sized) modulus buffer whose fourth byte is
`0x80`: the first 32-bit chunk is `0x80000000`, which JavaScript's signed
`<<`/`|` arithmetic renders as `-2147483648`. -/
def badModulus : List Nat := 0 :: 0 :: 0 :: 128 :: List.replicate 252 0

set_option maxRecDepth 10000 in
/-- **C3 (code evaluation at the failing input)**: the encoder emits the
limb string `"-2147483648"` — a *negative* value — for a modulus whose
fourth byte has its top bit set, contradicting the invariant that every
numeric field is a non-negative base-10 string below the field modulus. -/
theorem negative_limb_cex :
    badModulus.length * 8 = 2048 ∧
    (jwkToCircuitFormat badModulus [1, 0, 1]).modulus.head? = some (-2147483648) ∧
    (-2147483648 : Int) < 0 := by
  decide

/-! ## Claim C4 — transient-artifact cleanup in the prover coordinator -/

theorem cleanupAll_input (fs : FS) : cleanupAll fs inputPath = false := by
  simp [cleanupAll, fsRemove, inputPath, witnessPath, proofPath, publicPath]

theorem cleanupAll_witness (fs : FS) : cleanupAll fs witnessPath = false := by
  simp [cleanupAll, fsRemove, inputPath, witnessPath, proofPath, publicPath]

theorem cleanupAll_proof (fs : FS) : cleanupAll fs proofPath = false := by
  simp [cleanupAll, fsRemove, inputPath, witnessPath, proofPath, publicPath]

theorem cleanupAll_public (fs : FS) : cleanupAll fs publicPath = false := by
  simp [cleanupAll, fsRemove, inputPath, witnessPath, proofPath, publicPath]

set_option maxHeartbeats 1600000 in
/-- **C4**: on every exit path of the prover coordinator's `/prove`
handler — early service-unavailable and bad-request returns, write
failure, witness-generation failure, prover failure, output-parse
failure, and success — none of the transient artifacts the call created
(input JSON, witness, proof, public-signals files) remain on the
filesystem when the handler returns. -/
theorem prover_cleanup (kr kgip : Bool) (req : Option CoordReq)
    (oc : ExecOutcome) (fs0 : FS) :
    ((coordProve kr kgip req oc fs0).created.all
      (fun p => (coordProve kr kgip req oc fs0).fs p == false)) = true := by
  cases kgip with
  | true => simp [coordProve]
  | false =>
    cases kr with
    | false => simp [coordProve]
    | true =>
      cases req with
      | none => simp [coordProve]
      | some input =>
        simp only [coordProve]
        split_ifs <;>
          simp only [coordFail, List.all_cons, List.all_nil, List.all_append,
            cleanupAll_input, cleanupAll_witness, cleanupAll_proof, cleanupAll_public,
            beq_self_eq_true, Bool.and_true, Bool.and_self, List.all_eq_true,
            List.not_mem_nil, false_implies, implies_true]

/-! ## Claim C1 — transient paths are fixed shared filenames -/

def coordReqA : CoordReq := ⟨some (.str "1"), some (.str "2"), some (.str "3")⟩

def coordReqB : CoordReq := ⟨some (.str "4"), some (.str "2"), some (.str "3")⟩

/-- **C1 (code evaluation at the failing input)**: the transient artifact
paths are process-wide constants.  Two `/prove` invocations with
different request bodies use exactly the same four fixed shared
filenames, so concurrent requests with distinct inputs do share every
transient path, contradicting the per-request-unique-path contract. -/
theorem fixed_transient_paths_cex :
    (coordReqA == coordReqB) = false ∧
    (∀ r1 r2 : CoordReq, transientPaths r1 = transientPaths r2) ∧
    transientPaths coordReqA =
      ["inputs/input.json", "outputs/witness.wtns", "outputs/proof.json",
        "outputs/public.json"] :=
  ⟨by decide, fun _ _ => rfl, by decide⟩

/-! ## Claims C7/C9/C10 — key resolution, validation and the JWK cache -/

theorem fetchJWKMiss_networkCalls (cache : Cache) (now : Int)
    (provider keyId cacheKey : String) (net : NetResult)
    (hp : (OAUTH_PROVIDER_NAMES.contains provider) = true) :
    (fetchJWKMiss cache now provider keyId net cacheKey).networkCalls = 1 := by
  unfold fetchJWKMiss
  rw [hp]
  simp only [Bool.not_true, Bool.false_eq_true, if_false]
  cases net with
  | transportError => rfl
  | httpError s st => rfl
  | ok keys =>
    cases keys with
    | none => rfl
    | some ks =>
      dsimp only
      split
      · rfl
      · split_ifs <;> rfl

/-- Case analysis of the miss path: either the cache is untouched, or the
located key passed every validation and was stored under the cache key
with the call's timestamp. -/
theorem fetchJWKMiss_cache_cases (cache : Cache) (now : Int)
    (provider keyId cacheKey : String) (net : NetResult) :
    ((∃ e, (fetchJWKMiss cache now provider keyId net cacheKey).result = .error e) ∧
      (fetchJWKMiss cache now provider keyId net cacheKey).cache = cache) ∨
    (∃ jwk, (fetchJWKMiss cache now provider keyId net cacheKey).result = .ok jwk ∧
      jwk.kty = some "RSA" ∧ jwk.use = some "sig" ∧
      2048 ≤ (jwk.n.getD []).length * 8 ∧
      (fetchJWKMiss cache now provider keyId net cacheKey).cache =
        cacheSet cache cacheKey ⟨jwk, now⟩) := by
  unfold fetchJWKMiss
  split_ifs with h
  · exact Or.inl ⟨⟨_, rfl⟩, rfl⟩
  · cases net with
    | transportError => exact Or.inl ⟨⟨_, rfl⟩, rfl⟩
    | httpError s st => exact Or.inl ⟨⟨_, rfl⟩, rfl⟩
    | ok keys =>
      cases keys with
      | none => exact Or.inl ⟨⟨_, rfl⟩, rfl⟩
      | some ks =>
        dsimp only
        split
        · exact Or.inl ⟨⟨_, rfl⟩, rfl⟩
        · rename_i jwk hfind
          split_ifs with h1 h2 h3 h4 h5
          · exact Or.inl ⟨⟨_, rfl⟩, rfl⟩
          · exact Or.inl ⟨⟨_, rfl⟩, rfl⟩
          · exact Or.inl ⟨⟨_, rfl⟩, rfl⟩
          · exact Or.inl ⟨⟨_, rfl⟩, rfl⟩
          · exact Or.inl ⟨⟨_, rfl⟩, rfl⟩
          · refine Or.inr ⟨jwk, rfl, ?_, ?_, by omega, rfl⟩
            · simpa using h2
            · simpa using h3

/-- **C10**: whenever key resolution returns an error — unsupported
provider, transport or HTTP failure, malformed key set, key-id not
found, or any failed key validation — the JWK cache is left unchanged;
and whenever the cache does change, the call returned a key that passed
every validation check, stored under the request's cache key with the
current timestamp. -/
theorem fetchJWK_cache_discipline (cache : Cache) (now : Int)
    (provider keyId : String) (net : NetResult) :
    (∀ e, (fetchJWK cache now provider keyId net).result = .error e →
      (fetchJWK cache now provider keyId net).cache = cache) ∧
    ((fetchJWK cache now provider keyId net).cache ≠ cache →
      ∃ jwk, (fetchJWK cache now provider keyId net).result = .ok jwk ∧
        jwk.kty = some "RSA" ∧ jwk.use = some "sig" ∧
        2048 ≤ (jwk.n.getD []).length * 8 ∧
        (fetchJWK cache now provider keyId net).cache =
          cacheSet cache (provider ++ "_" ++ keyId) ⟨jwk, now⟩) := by
  have hmain :
      (fetchJWK cache now provider keyId net).cache = cache ∨
      (∃ jwk, (fetchJWK cache now provider keyId net).result = .ok jwk ∧
        jwk.kty = some "RSA" ∧ jwk.use = some "sig" ∧
        2048 ≤ (jwk.n.getD []).length * 8 ∧
        (fetchJWK cache now provider keyId net).cache =
          cacheSet cache (provider ++ "_" ++ keyId) ⟨jwk, now⟩) := by
    cases hg : cacheGet cache (provider ++ "_" ++ keyId) with
    | some cached =>
      by_cases httl : now - cached.timestamp < JWK_CACHE_TTL
      · left
        simp only [fetchJWK, hg]
        rw [if_pos httl]
      · have hmiss : fetchJWK cache now provider keyId net =
            fetchJWKMiss cache now provider keyId net (provider ++ "_" ++ keyId) := by
          simp only [fetchJWK, hg]
          rw [if_neg httl]
        rw [hmiss]
        exact (fetchJWKMiss_cache_cases ..).imp (fun h => h.2) id
    | none =>
      have hmiss : fetchJWK cache now provider keyId net =
          fetchJWKMiss cache now provider keyId net (provider ++ "_" ++ keyId) := by
        simp only [fetchJWK, hg]
      rw [hmiss]
      exact (fetchJWKMiss_cache_cases ..).imp (fun h => h.2) id
  constructor
  · intro e he
    rcases hmain with h | ⟨jwk, hok, -⟩
    · exact h
    · rw [he] at hok; cases hok
  · intro hne
    rcases hmain with h | h
    · exact (hne h).elim
    · exact h

theorem fetchJWK_cache_discipline_witness :
    (fetchJWK [] 0 "google" "kid1" .transportError).cache = [] :=
  (fetchJWK_cache_discipline [] 0 "google" "kid1" .transportError).1
    "Unable to connect to google JWK endpoint" rfl

/-- **C9**: a second resolve for a cached `(provider, keyId)` within the
one-hour TTL window returns the identical cached key, mutates nothing,
and performs no network call (the outcome is the same for every network
oracle); once the TTL has elapsed, the next resolve performs exactly one
network fetch and, on success, stores the refreshed key with the current
timestamp. -/
theorem fetchJWK_ttl (cache : Cache) (now : Int) (provider keyId : String)
    (c : CacheEntry)
    (hc : cacheGet cache (provider ++ "_" ++ keyId) = some c) :
    (now - c.timestamp < JWK_CACHE_TTL →
      ∀ net, fetchJWK cache now provider keyId net = ⟨.ok c.jwk, cache, 0⟩) ∧
    (JWK_CACHE_TTL ≤ now - c.timestamp →
      (OAUTH_PROVIDER_NAMES.contains provider) = true →
      ∀ net, (fetchJWK cache now provider keyId net).networkCalls = 1 ∧
        ∀ jwk, (fetchJWK cache now provider keyId net).result = .ok jwk →
          (fetchJWK cache now provider keyId net).cache =
            cacheSet cache (provider ++ "_" ++ keyId) ⟨jwk, now⟩) := by
  constructor
  · intro httl net
    simp only [fetchJWK, hc]
    rw [if_pos httl]
  · intro hexp hp net
    have hmiss : fetchJWK cache now provider keyId net =
        fetchJWKMiss cache now provider keyId net (provider ++ "_" ++ keyId) := by
      simp only [fetchJWK, hc]
      rw [if_neg (by omega)]
    rw [hmiss]
    refine ⟨fetchJWKMiss_networkCalls _ _ _ _ _ _ hp, ?_⟩
    intro jwk hok
    rcases fetchJWKMiss_cache_cases cache now provider keyId
        (provider ++ "_" ++ keyId) net with ⟨⟨e, herr⟩, -⟩ | ⟨jwk', hok', -, -, -, hcache⟩
    · rw [hok] at herr; cases herr
    · rw [hok] at hok'
      cases hok'
      exact hcache

/-! ## Claim C6 — limb chunking of RSA key material -/

theorem leValue_lt (bs : List Nat) (hb : ∀ b ∈ bs, b < 256) :
    leValue bs < 256 ^ bs.length := by
  induction bs with
  | nil => simp [leValue]
  | cons b bs ih =>
    have h1 : b < 256 := hb b (List.mem_cons_self b bs)
    have h2 := ih (fun x hx => hb x (List.mem_cons_of_mem _ hx))
    simp only [leValue, List.length_cons]
    calc b + 256 * leValue bs < 256 * (leValue bs + 1) := by omega
      _ ≤ 256 * 256 ^ bs.length := Nat.mul_le_mul_left _ h2
      _ = 256 ^ (bs.length + 1) := by rw [pow_succ, Nat.mul_comm]

theorem chunkOr_eq (bs : List Nat) (j : Nat) (hb : ∀ b ∈ bs, b < 256)
    (hlen : 8 * (j + bs.length) ≤ 32) :
    chunkOr bs j = leValue bs * 2 ^ (8 * j) := by
  induction bs generalizing j with
  | nil => simp [chunkOr, leValue]
  | cons b bs ih =>
    have h1 : b < 256 := hb b (List.mem_cons_self b bs)
    have hb' : ∀ x ∈ bs, x < 256 := fun x hx => hb x (List.mem_cons_of_mem _ hx)
    have hlen' : 8 * ((j + 1) + bs.length) ≤ 32 := by
      simp only [List.length_cons] at hlen
      omega
    have hble : b * 2 ^ (8 * j) < 2 ^ (8 * (j + 1)) := by
      calc b * 2 ^ (8 * j) < 256 * 2 ^ (8 * j) :=
            (Nat.mul_lt_mul_right (Nat.pos_pow_of_pos _ (by norm_num))).mpr h1
        _ = 2 ^ (8 * (j + 1)) := by
            rw [show (256 : Nat) = 2 ^ 8 from rfl, ← pow_add]
            ring_nf
    have hmod : b * 2 ^ (8 * j) % 2 ^ 32 = b * 2 ^ (8 * j) := by
      apply Nat.mod_eq_of_lt
      calc b * 2 ^ (8 * j) < 2 ^ (8 * (j + 1)) := hble
        _ ≤ 2 ^ 32 := by
            apply Nat.pow_le_pow_right (by norm_num)
            simp only [List.length_cons] at hlen
            omega
    simp only [chunkOr, leValue]
    rw [ih (j + 1) hb' hlen', Nat.shiftLeft_eq, hmod]
    have key := Nat.mul_add_lt_is_or (i := 8 * (j + 1)) hble (leValue bs)
    calc b * 2 ^ (8 * j) ||| leValue bs * 2 ^ (8 * (j + 1))
        = 2 ^ (8 * (j + 1)) * leValue bs ||| b * 2 ^ (8 * j) := by
          rw [Nat.or_comm, Nat.mul_comm]
      _ = 2 ^ (8 * (j + 1)) * leValue bs + b * 2 ^ (8 * j) := key.symm
      _ = (b + 256 * leValue bs) * 2 ^ (8 * j) := by
          rw [show (256 : Nat) = 2 ^ 8 from rfl]
          ring_nf

theorem toInt32_emod (n : Nat) (hn : n < 2 ^ 32) :
    toInt32 n % ((2 : Int) ^ 32) = (n : Int) := by
  unfold toInt32
  dsimp only
  split_ifs <;> omega

/-- `chunk32` modulo `2^32` recovers the little-endian value of a chunk of
at most four bytes. -/
theorem chunk32_emod (c : List Nat) (hb : ∀ b ∈ c, b < 256) (hc : c.length ≤ 4) :
    chunk32 c % ((2 : Int) ^ 32) = (leValue c : Int) := by
  have h0 : chunkOr c 0 = leValue c := by
    have := chunkOr_eq c 0 hb (by omega)
    simpa using this
  have hlt : leValue c < 2 ^ 32 := by
    calc leValue c < 256 ^ c.length := leValue_lt c hb
      _ ≤ 256 ^ 4 := Nat.pow_le_pow_right (by norm_num) hc
      _ = 2 ^ 32 := by norm_num
  rw [chunk32, h0, toInt32_emod _ hlt]

theorem reassemble_cons (x : Int) (l : List Int) :
    reassemble (x :: l) = x % 2 ^ 32 + 2 ^ 32 * reassemble l := rfl

theorem reassemble_replicate_zero (k : Nat) :
    reassemble (List.replicate k 0) = 0 := by
  induction k with
  | zero => rfl
  | succ k ih => rw [List.replicate_succ, reassemble_cons, ih]; norm_num

theorem reassemble_append_zeros (l : List Int) (k : Nat) :
    reassemble (l ++ List.replicate k 0) = reassemble l := by
  induction l with
  | nil => simpa using reassemble_replicate_zero k
  | cons x l ih => rw [List.cons_append, reassemble_cons, ih, reassemble_cons]

theorem reassemble_chunks (bs : List Nat) (hb : ∀ b ∈ bs, b < 256) :
    reassemble ((chunksOf4 bs).map chunk32) = (leValue bs : Int) := by
  induction bs using chunksOf4.induct with
  | case1 => simp [chunksOf4, reassemble, leValue]
  | case2 b0 b1 b2 b3 rest ih =>
    have hb4 : ∀ b ∈ [b0, b1, b2, b3], b < 256 := by
      intro b hbm
      apply hb
      simp only [List.mem_cons] at hbm ⊢
      tauto
    have hbr : ∀ b ∈ rest, b < 256 := by
      intro b hbm
      apply hb
      simp only [List.mem_cons]
      tauto
    rw [show chunksOf4 (b0 :: b1 :: b2 :: b3 :: rest) = [b0, b1, b2, b3] :: chunksOf4 rest
        from rfl,
      List.map_cons, reassemble_cons, ih hbr, chunk32_emod [b0, b1, b2, b3] hb4 (by simp)]
    show (leValue [b0, b1, b2, b3] : Int) + 2 ^ 32 * (leValue rest : Int) =
      (leValue (b0 :: b1 :: b2 :: b3 :: rest) : Int)
    simp only [leValue]
    push_cast
    ring
  | case3 bs h1 h2 =>
    match bs, h1, h2 with
    | [], h1, _ => exact (h1 rfl).elim
    | a :: b :: c :: d :: r, _, h2 => exact (h2 a b c d r rfl).elim
    | [a], _, _ =>
      rw [show chunksOf4 [a] = [[a]] from rfl, List.map_cons, List.map_nil,
        reassemble_cons, chunk32_emod [a] (by simpa using hb) (by simp)]
      show (leValue [a] : Int) + 2 ^ 32 * reassemble [] = (leValue [a] : Int)
      rw [show reassemble [] = 0 from rfl]
      ring
    | [a, b], _, _ =>
      rw [show chunksOf4 [a, b] = [[a, b]] from rfl, List.map_cons, List.map_nil,
        reassemble_cons, chunk32_emod [a, b] (by simpa using hb) (by simp)]
      show (leValue [a, b] : Int) + 2 ^ 32 * reassemble [] = (leValue [a, b] : Int)
      rw [show reassemble [] = 0 from rfl]
      ring
    | [a, b, c], _, _ =>
      rw [show chunksOf4 [a, b, c] = [[a, b, c]] from rfl, List.map_cons, List.map_nil,
        reassemble_cons, chunk32_emod [a, b, c] (by simpa using hb) (by simp)]
      show (leValue [a, b, c] : Int) + 2 ^ 32 * reassemble [] = (leValue [a, b, c] : Int)
      rw [show reassemble [] = 0 from rfl]
      ring

theorem chunksOf4_len (bs : List Nat) : (chunksOf4 bs).length * 4 ≤ bs.length + 3 := by
  induction bs using chunksOf4.induct with
  | case1 => simp [chunksOf4]
  | case2 b0 b1 b2 b3 rest ih =>
    simp only [chunksOf4, List.length_cons]
    omega
  | case3 bs h1 h2 =>
    match bs, h1, h2 with
    | [], h1, _ => exact (h1 rfl).elim
    | a :: b :: c :: d :: r, _, h2 => exact (h2 a b c d r rfl).elim
    | [a], _, _ => simp [chunksOf4]
    | [a, b], _, _ => simp [chunksOf4]
    | [a, b, c], _, _ => simp [chunksOf4]

/-- **C6 (amended)**: the encoder never fails on oversized key material —
the limb list is always cut to exactly 64 limbs, silently truncating
anything beyond (`.slice(0, 64)`); when the material fits in 64 limbs
(byte length ≤ 256) it is chunked into 32-bit little-endian limbs,
zero-padded on the high end to exactly 64, and the limbs read modulo
`2^32` (their signed decimal strings reinterpreted as unsigned 32-bit
words) reassemble to the full source value. -/
theorem jwk_modulus_encoding (nB eB : List Nat) :
    ((jwkToCircuitFormat nB eB).modulus.length = 64) ∧
    (64 ≤ ((chunksOf4 nB).map chunk32).length →
      (jwkToCircuitFormat nB eB).modulus = ((chunksOf4 nB).map chunk32).take 64) ∧
    ((∀ b ∈ nB, b < 256) → nB.length ≤ 256 →
      reassemble (jwkToCircuitFormat nB eB).modulus = (leValue nB : Int)) := by
  refine ⟨?_, ?_, ?_⟩
  · simp only [jwkToCircuitFormat, chunk64, List.length_take, List.length_append,
      List.length_replicate, List.length_map]
    omega
  · intro h64
    have hz : 64 - ((chunksOf4 nB).map chunk32).length = 0 := by omega
    simp only [jwkToCircuitFormat, chunk64, hz, List.replicate_zero, List.append_nil]
  · intro hb hlen
    have hL := chunksOf4_len nB
    have hL64 : ((chunksOf4 nB).map chunk32).length ≤ 64 := by
      simp only [List.length_map]
      omega
    have hfull : (jwkToCircuitFormat nB eB).modulus =
        ((chunksOf4 nB).map chunk32) ++
          List.replicate (64 - ((chunksOf4 nB).map chunk32).length) 0 := by
      simp only [jwkToCircuitFormat, chunk64]
      apply List.take_of_length_le
      simp only [List.length_append, List.length_replicate]
      omega
    rw [hfull, reassemble_append_zeros, reassemble_chunks nB hb]

theorem jwk_modulus_encoding_witness :
    reassemble (jwkToCircuitFormat [1, 2, 3, 4, 5] [1, 0, 1]).modulus =
      (leValue [1, 2, 3, 4, 5] : Int) :=
  (jwk_modulus_encoding [1, 2, 3, 4, 5] [1, 0, 1]).2.2 (by decide) (by decide)

/-- A 260-byte buffer: its value needs 65 limbs, one more than declared. -/
def oversizedModulus : List Nat := List.replicate 259 0 ++ [1]

theorem leValue_append (xs ys : List Nat) :
    leValue (xs ++ ys) = leValue xs + 256 ^ xs.length * leValue ys := by
  induction xs with
  | nil => simp [leValue]
  | cons b bs ih =>
    rw [List.cons_append,
      show leValue (b :: (bs ++ ys)) = b + 256 * leValue (bs ++ ys) from rfl, ih,
      show leValue (b :: bs) = b + 256 * leValue bs from rfl]
    simp only [List.length_cons, pow_succ]
    ring

theorem leValue_replicate_zero (k : Nat) : leValue (List.replicate k 0) = 0 := by
  induction k with
  | zero => rfl
  | succ k ih => simp [List.replicate_succ, leValue, ih]

set_option maxRecDepth 10000 in
/-- **C6 counterexample**: key material needing more than 64 limbs does
not fail with any error — `jwkToCircuitFormat` silently truncates it to
64 limbs, losing the high-order limb: a 260-byte modulus with value
`2^2072` encodes to 64 zero limbs. -/
theorem oversized_modulus_truncated_cex :
    oversizedModulus.length = 260 ∧
    (jwkToCircuitFormat oversizedModulus [1, 0, 1]).modulus.length = 64 ∧
    reassemble (jwkToCircuitFormat oversizedModulus [1, 0, 1]).modulus = 0 ∧
    leValue oversizedModulus = 2 ^ 2072 ∧ (0 : Int) < 2 ^ 2072 := by
  refine ⟨by decide, by decide, by decide, ?_, by positivity⟩
  rw [show oversizedModulus = List.replicate 259 0 ++ [1] from rfl, leValue_append,
    leValue_replicate_zero, List.length_replicate,
    show leValue [1] = 1 from rfl, Nat.mul_one, Nat.zero_add,
    show (256 : Nat) = 2 ^ 8 from rfl, ← pow_mul]

/-! ## Claim C7 — validation of the located JWKS key -/

/-- The validation-stage behaviour of `fetchJWK` once a key has been
located: reduction of the call to the validation chain, assuming a cache
miss, a supported provider, a well-formed key-set response, and a located
key whose `kty`/`use`/`alg` fields are present. -/
theorem fetchJWK_validation_stage (cache : Cache) (now : Int)
    (provider keyId : String) (keys : List JWK) (jwk : JWK)
    (hg : cacheGet cache (provider ++ "_" ++ keyId) = none)
    (hp : (OAUTH_PROVIDER_NAMES.contains provider) = true)
    (hfind : keys.find? (fun key => key.kid == some keyId) = some jwk)
    (h1 : truthyStr jwk.kty = true) (h2 : truthyStr jwk.use = true)
    (h3 : truthyStr jwk.alg = true) :
    fetchJWK cache now provider keyId (.ok (some keys)) =
      (if jwk.kty != some "RSA" then
        ⟨.error ("Unsupported key type: " ++ (jwk.kty.getD "") ++ ", expected RSA"),
          cache, 1⟩
      else if jwk.use != some "sig" then
        ⟨.error ("Invalid key use: " ++ (jwk.use.getD "") ++ ", expected sig"), cache, 1⟩
      else if !(truthyBytes jwk.n && truthyBytes jwk.e) then
        ⟨.error "Invalid RSA JWK: missing modulus (n) or exponent (e)", cache, 1⟩
      else if (jwk.n.getD []).length * 8 < 2048 then
        ⟨.error ("Insufficient key size: " ++ toString ((jwk.n.getD []).length * 8) ++
          " bits, minimum 2048 required"), cache, 1⟩
      else
        ⟨.ok jwk, cacheSet cache (provider ++ "_" ++ keyId) ⟨jwk, now⟩, 1⟩) := by
  have hmiss : fetchJWK cache now provider keyId (.ok (some keys)) =
      fetchJWKMiss cache now provider keyId (.ok (some keys))
        (provider ++ "_" ++ keyId) := by
    simp only [fetchJWK, hg]
  rw [hmiss]
  unfold fetchJWKMiss
  rw [hp]
  simp only [Bool.not_true, Bool.false_eq_true, if_false]
  rw [hfind]
  simp only [h1, h2, h3, Bool.and_self, Bool.not_true, Bool.false_eq_true, if_false]

/-- **C7 (amended)**: for a key located by key-id (with its `kty`, `use`
and `alg` fields present), resolution fails with the unsupported-key-type
error when the type is not RSA, with the invalid-key-usage error when the
usage is not `sig`, and with the insufficient-key-size error when **eight
times the byte length of the decoded modulus** — not the true bit-length
of the modulus integer — is below 2048; only a key passing all checks is
cached and returned. -/
theorem key_validation (cache : Cache) (now : Int)
    (provider keyId : String) (keys : List JWK) (jwk : JWK)
    (hg : cacheGet cache (provider ++ "_" ++ keyId) = none)
    (hp : (OAUTH_PROVIDER_NAMES.contains provider) = true)
    (hfind : keys.find? (fun key => key.kid == some keyId) = some jwk)
    (h1 : truthyStr jwk.kty = true) (h2 : truthyStr jwk.use = true)
    (h3 : truthyStr jwk.alg = true) :
    (∀ k, jwk.kty = some k → k ≠ "RSA" →
      fetchJWK cache now provider keyId (.ok (some keys)) =
        ⟨.error ("Unsupported key type: " ++ k ++ ", expected RSA"), cache, 1⟩) ∧
    (jwk.kty = some "RSA" → ∀ u, jwk.use = some u → u ≠ "sig" →
      fetchJWK cache now provider keyId (.ok (some keys)) =
        ⟨.error ("Invalid key use: " ++ u ++ ", expected sig"), cache, 1⟩) ∧
    (jwk.kty = some "RSA" → jwk.use = some "sig" →
      (truthyBytes jwk.n && truthyBytes jwk.e) = true →
      (jwk.n.getD []).length * 8 < 2048 →
      fetchJWK cache now provider keyId (.ok (some keys)) =
        ⟨.error ("Insufficient key size: " ++ toString ((jwk.n.getD []).length * 8) ++
          " bits, minimum 2048 required"), cache, 1⟩) ∧
    (∀ jwk', (fetchJWK cache now provider keyId (.ok (some keys))).result = .ok jwk' →
      jwk' = jwk ∧ jwk.kty = some "RSA" ∧ jwk.use = some "sig" ∧
      2048 ≤ (jwk.n.getD []).length * 8 ∧
      (fetchJWK cache now provider keyId (.ok (some keys))).cache =
        cacheSet cache (provider ++ "_" ++ keyId) ⟨jwk, now⟩) := by
  have hstage := fetchJWK_validation_stage cache now provider keyId keys jwk
    hg hp hfind h1 h2 h3
  refine ⟨?_, ?_, ?_, ?_⟩
  · intro k hk hne
    rw [hstage, hk]
    rw [if_pos (by simp [bne_iff_ne, hne])]
    simp [Option.getD]
  · intro hrsa u hu hne
    rw [hstage, hrsa, hu]
    rw [if_neg (by simp), if_pos (by simp [bne_iff_ne, hne])]
    simp [Option.getD]
  · intro hrsa hsig hne hsize
    rw [hstage, hrsa, hsig]
    rw [if_neg (by simp), if_neg (by simp), if_neg (by simp [hne]), if_pos hsize]
  · intro jwk' hok
    rw [hstage] at hok
    split_ifs at hok with c1 c2 c3 c4
    all_goals cases hok
    refine ⟨rfl, by simpa using c1, by simpa using c2, by omega, ?_⟩
    rw [hstage, if_neg c1, if_neg c2, if_neg c3, if_neg c4]

/-- A key whose decoded modulus is 256 bytes long but begins with a zero
byte: the integer it encodes has bit-length at most 2041, below the
2048-bit minimum, yet `modulusBuffer.length * 8` is exactly 2048. -/
def weakJWK : JWK :=
  { kid := some "kid1", kty := some "RSA", use := some "sig", alg := some "RS256",
    n := some (0 :: List.replicate 255 1), e := some [1, 0, 1] }

theorem beValue_foldl_lt (bs : List Nat) (hb : ∀ b ∈ bs, b < 256) :
    ∀ acc, List.foldl (fun a b => 256 * a + b) acc bs < (acc + 1) * 256 ^ bs.length := by
  induction bs with
  | nil => intro acc; simp
  | cons b bs ih =>
    intro acc
    have hb1 : b < 256 := hb b (List.mem_cons_self b bs)
    have ih' := ih (fun x hx => hb x (List.mem_cons_of_mem _ hx)) (256 * acc + b)
    simp only [List.foldl, List.length_cons]
    calc List.foldl (fun a b => 256 * a + b) (256 * acc + b) bs
        < (256 * acc + b + 1) * 256 ^ bs.length := ih'
      _ ≤ (256 * (acc + 1)) * 256 ^ bs.length :=
          Nat.mul_le_mul_right _ (by omega)
      _ = (acc + 1) * 256 ^ (bs.length + 1) := by ring

theorem beValue_lt (bs : List Nat) (hb : ∀ b ∈ bs, b < 256) :
    beValue bs < 256 ^ bs.length := by
  simpa [beValue] using beValue_foldl_lt bs hb 0

set_option maxRecDepth 10000 in
/-- **C7 counterexample**: a modulus whose true bit-length is below 2048
(its value is under `2^2041`) is accepted and returned, because the code
measures `byteLength * 8` of the decoded buffer, not the modulus
bit-length. -/
theorem insufficient_bitlength_accepted_cex :
    ((weakJWK.n).getD []).length * 8 = 2048 ∧
    beValue ((weakJWK.n).getD []) < 2 ^ 2041 ∧
    (fetchJWK [] 0 "google" "kid1" (.ok (some [weakJWK]))).result = .ok weakJWK := by
  refine ⟨by decide, ?_, by rfl⟩
  have h0 : beValue ((weakJWK.n).getD []) = beValue (List.replicate 255 1) := rfl
  rw [h0]
  calc beValue (List.replicate 255 1)
      < 256 ^ (List.replicate 255 1).length := beValue_lt _ (by simp)
    _ = 2 ^ 2040 := by
        rw [List.length_replicate, show (256 : Nat) = 2 ^ 8 from rfl, ← pow_mul]
    _ < 2 ^ 2041 := Nat.pow_lt_pow_right (by omega) (by omega)

/-- A located key with a non-RSA type. -/
def wrongTypeJWK : JWK :=
  { kid := some "kid1", kty := some "EC", use := some "sig", alg := some "ES256",
    n := some [1], e := some [1] }

theorem key_validation_witness :
    fetchJWK [] 0 "google" "kid1" (.ok (some [wrongTypeJWK])) =
      ⟨.error "Unsupported key type: EC, expected RSA", [], 1⟩ :=
  (key_validation [] 0 "google" "kid1" [wrongTypeJWK] wrongTypeJWK (by decide)
      (by decide) (by decide) (by decide) (by decide) (by decide)).1 "EC" (by decide)
    (by decide)

/-- A cached key fixture for the TTL round-trip. -/
def cachedGoogleKey : Cache := [("google_kid1", ⟨testJWK, 0⟩)]

set_option maxRecDepth 10000 in
theorem fetchJWK_ttl_witness :
    fetchJWK cachedGoogleKey 10 "google" "kid1" .transportError =
      ⟨.ok testJWK, cachedGoogleKey, 0⟩ ∧
    (fetchJWK cachedGoogleKey 3600000 "google" "kid1" testNet).networkCalls = 1 :=
  ⟨(fetchJWK_ttl cachedGoogleKey 10 "google" "kid1" ⟨testJWK, 0⟩ (by decide)).1
      (by decide) .transportError,
   ((fetchJWK_ttl cachedGoogleKey 3600000 "google" "kid1" ⟨testJWK, 0⟩ (by decide)).2
      (by decide) (by decide) testNet).1⟩

end ZkLoginProver
